import Mathlib

/-!
Verification of the `@apparts/types` schema-validation engine and request
pipeline against its specification.

The repository ships the `HttpCode` class (`code.js`), the endpoint
declarations (`myTestEndpoint.js`) and the preparator test suite; the matcher
and preparator bodies themselves are exercised only through those tests, so
they are modelled here from the specification, while `HttpCode` and the
endpoint declarations are embedded from the source.
-/

/-- JSON-like values, the data the matcher and the pipeline operate on.
Numbers are modelled as integers (the claims under study only involve
integer-valued numbers). -/
inductive Json where
  | null : Json
  | bool : Bool → Json
  | num : Int → Json
  | str : String → Json
  | arr : List Json → Json
  | obj : List (String × Json) → Json
deriving Repr

/-- JavaScript truthiness of an optional value (`undefined` is `none`).
`null`, `false`, `0`, and `""` are falsy; arrays and objects are truthy. -/
def truthy : Option Json → Bool
  | none => false
  | some .null => false
  | some (.bool b) => b
  | some (.num n) => n != 0
  | some (.str s) => s != ""
  | some (.arr _) => true
  | some (.obj _) => true

/-- Escape a character for inclusion in a JSON string literal. -/
def escChar (c : Char) : String :=
  if c = '"' then "\\\"" else if c = '\\' then "\\\\" else String.singleton c

/-- Render a JSON string literal, quotes included. -/
def jsonStr (s : String) : String :=
  "\"" ++ String.join (s.toList.map escChar) ++ "\""

mutual

/-- Serialize a JSON value, as the pipeline does before sending a response
body. -/
def jsonEncode : Json → String
  | .null => "null"
  | .bool b => if b then "true" else "false"
  | .num n => toString n
  | .str s => jsonStr s
  | .arr xs => "[" ++ encodeItems xs ++ "]"
  | .obj kvs => "\x7b" ++ encodeMembers kvs ++ "\x7d"

/-- Serialize the comma-separated elements of a JSON array. -/
def encodeItems : List Json → String
  | [] => ""
  | [x] => jsonEncode x
  | x :: y :: xs => jsonEncode x ++ "," ++ encodeItems (y :: xs)

/-- Serialize the comma-separated members of a JSON object. -/
def encodeMembers : List (String × Json) → String
  | [] => ""
  | [(k, v)] => jsonStr k ++ ":" ++ jsonEncode v
  | (k, v) :: m :: kvs => jsonStr k ++ ":" ++ jsonEncode v ++ "," ++ encodeMembers (m :: kvs)

end

/-- From `code.js` (src/unnamed/part_000): the `HttpCode` value a handler can
return to force a response status. -/
structure HttpCode where
  code : Nat
  type : String
  message : Json
deriving Repr

/-- From `code.js`: `getDefaultMessage` switches on the code but every branch
falls through to the default, which returns the empty string. -/
def getDefaultMessage (_code : Nat) : Json := .str ""

/-- From `code.js`: the `HttpCode` constructor.  `this.code = code`,
`this.type = "HttpCode"`, and `this.message` is the given message when it is
truthy, otherwise `getDefaultMessage(code)`. -/
def mkHttpCode (code : Nat) (message : Option Json) : HttpCode :=
  if truthy message then
    { code := code, type := "HttpCode", message := message.getD Json.null }
  else
    { code := code, type := "HttpCode", message := getDefaultMessage code }

mutual

/-- Structural deep equality on JSON values, used by `Literal` descriptors. -/
def jsonEq : Json → Json → Bool
  | .null, .null => true
  | .bool a, .bool b => a == b
  | .num a, .num b => a == b
  | .str a, .str b => a == b
  | .arr a, .arr b => jsonEqList a b
  | .obj a, .obj b => jsonEqMembers a b
  | _, _ => false

/-- Deep equality on JSON arrays, element by element. -/
def jsonEqList : List Json → List Json → Bool
  | [], [] => true
  | x :: xs, y :: ys => jsonEq x y && jsonEqList xs ys
  | _, _ => false

/-- Deep equality on JSON object members, in order. -/
def jsonEqMembers : List (String × Json) → List (String × Json) → Bool
  | [], [] => true
  | (k, v) :: xs, (l, w) :: ys => k == l && jsonEq v w && jsonEqMembers xs ys
  | _, _ => false

end

/-- Atomic descriptor kinds. The claims under study only exercise these
representative kinds; the remaining atomic kinds of the spec behave
analogously and are orthogonal to the claims. -/
inductive AtomicKind where
  | int
  | bool
  | string
  | catchAll
deriving Repr, DecidableEq

/-- Modelled from the spec (§3, §4.1): a type descriptor.  `objKnown` carries
`(key, optional, descriptor)` triples; `objUnknown` carries the shared value
descriptor; `oneOf` carries an ordered sequence of alternatives. -/
inductive Descriptor where
  | atomic : AtomicKind → Descriptor
  | objKnown : List (String × Bool × Descriptor) → Descriptor
  | objUnknown : Descriptor → Descriptor
  | array : Descriptor → Descriptor
  | oneOf : List Descriptor → Descriptor
  | lit : Json → Descriptor
deriving Repr

/-- Modelled from the spec (§3): a match result is either `Matched` with the
coerced value or `Mismatch` with a path from the root and a reason. -/
inductive MatchResult where
  | matched : Json → MatchResult
  | mismatch : List String → String → MatchResult
deriving Repr

/-- The value of a decimal digit character, `none` for any other character. -/
def digitOf (c : Char) : Option Nat :=
  if '0' ≤ c && c ≤ '9' then some (c.toNat - '0'.toNat) else none

/-- Accumulate decimal digits; fails on the first non-digit character. -/
def parseDigits (acc : Nat) : List Char → Option Nat
  | [] => some acc
  | c :: cs =>
      match digitOf c with
      | some d => parseDigits (acc * 10 + d) cs
      | none => none

/-- Parse a non-empty all-digit character list as a natural number. -/
def parseNatChars : List Char → Option Nat
  | [] => none
  | cs => parseDigits 0 cs

/-- Parse a decimal integer string with optional leading minus sign. -/
def parseIntStr (s : String) : Option Int :=
  match s.toList with
  | '-' :: cs => (parseNatChars cs).map (fun n => -(n : Int))
  | cs => (parseNatChars cs).map (fun n => (n : Int))

/-- Modelled from the spec (§4.1): acceptance predicate and coercion of the
atomic kinds.  `int` parses numeric strings to numbers; `bool` accepts boolean
literals or the strings `"true"`/`"false"`; `catchAll` accepts anything. -/
def matchAtomic : AtomicKind → Json → MatchResult
  | .int, .num n => .matched (.num n)
  | .int, .str s =>
      match parseIntStr s with
      | some n => .matched (.num n)
      | none => .mismatch [] "expected int"
  | .int, _ => .mismatch [] "expected int"
  | .bool, .bool b => .matched (.bool b)
  | .bool, .str "true" => .matched (.bool true)
  | .bool, .str "false" => .matched (.bool false)
  | .bool, _ => .mismatch [] "expected bool"
  | .string, .str s => .matched (.str s)
  | .string, _ => .mismatch [] "expected string"
  | .catchAll, v => .matched v

/-- Look up a key in a JSON object's member list (first occurrence). -/
def lookupKey (name : String) : List (String × Json) → Option Json
  | [] => none
  | (k, v) :: kvs => if k = name then some v else lookupKey name kvs

/-- Look up a declared field of a `Known`-mode object descriptor. -/
def findField (name : String) : List (String × Bool × Descriptor) → Option (Bool × Descriptor)
  | [] => none
  | (k, o, d) :: fs => if k = name then some (o, d) else findField name fs

mutual

/-- Modelled from the spec (§4.1): the matcher, `match(descriptor, value)`.
The `strap` flag selects the stripping mode for `Known`-mode objects: with it
off any present undeclared key is a mismatch, with it on undeclared keys are
silently dropped from the coerced result. -/
def matchDesc (strap : Bool) : Descriptor → Json → MatchResult
  | .atomic k, v => matchAtomic k v
  | .objKnown fields, .obj kvs =>
      if !strap && kvs.any (fun p => (findField p.1 fields).isNone) then
        .mismatch [] "unknown key"
      else
        match matchKnownFields strap fields kvs with
        | .ok cs => .matched (.obj cs)
        | .error (p, r) => .mismatch p r
  | .objKnown _, _ => .mismatch [] "expected object"
  | .objUnknown t, .obj kvs =>
      match matchValues strap t kvs with
      | .ok cs => .matched (.obj cs)
      | .error (p, r) => .mismatch p r
  | .objUnknown _, _ => .mismatch [] "expected object"
  | .array t, .arr xs =>
      match matchItems strap t xs 0 with
      | .ok cs => .matched (.arr cs)
      | .error (p, r) => .mismatch p r
  | .array _, _ => .mismatch [] "expected array"
  | .oneOf alts, v => matchAlts strap alts v
  | .lit l, v => if jsonEq l v then .matched v else .mismatch [] "value mismatch"

/-- Modelled from the spec (§4.1, `OneOf`): try the alternatives
left-to-right, return the first `Matched`; when every alternative fails the
result is the last alternative's mismatch. -/
def matchAlts (strap : Bool) : List Descriptor → Json → MatchResult
  | [], _ => .mismatch [] "no alternative matched"
  | [d], v => matchDesc strap d v
  | d :: e :: ds, v =>
      match matchDesc strap d v with
      | .matched c => .matched c
      | .mismatch _ _ => matchAlts strap (e :: ds) v

/-- Modelled from the spec (§4.1, `Array`): match every element against the
item descriptor, collecting coerced elements; a mismatch at element `i`
extends the path with `"[i]"`. -/
def matchItems (strap : Bool) (t : Descriptor) : List Json → Nat → Except (List String × String) (List Json)
  | [], _ => .ok []
  | x :: xs, i =>
      match matchDesc strap t x with
      | .mismatch p r => .error (("[" ++ toString i ++ "]") :: p, r)
      | .matched c =>
          match matchItems strap t xs (i + 1) with
          | .ok cs => .ok (c :: cs)
          | .error e => .error e

/-- Modelled from the spec (§4.1, `Unknown`-mode objects): every member value
must satisfy the shared descriptor; key names are unconstrained. -/
def matchValues (strap : Bool) (t : Descriptor) : List (String × Json) → Except (List String × String) (List (String × Json))
  | [] => .ok []
  | (k, v) :: kvs =>
      match matchDesc strap t v with
      | .mismatch p r => .error (k :: p, r)
      | .matched c =>
          match matchValues strap t kvs with
          | .ok cs => .ok ((k, c) :: cs)
          | .error e => .error e

/-- Modelled from the spec (§4.1, `Known`-mode objects): each declared field
must be present (unless optional) and match its descriptor; the coerced
result contains exactly the declared, present fields. -/
def matchKnownFields (strap : Bool) : List (String × Bool × Descriptor) → List (String × Json) → Except (List String × String) (List (String × Json))
  | [], _ => .ok []
  | (name, opt, t) :: fields, kvs =>
      match lookupKey name kvs with
      | none =>
          if opt then matchKnownFields strap fields kvs
          else .error ([name], "missing key")
      | some v =>
          match matchDesc strap t v with
          | .mismatch p r => .error (name :: p, r)
          | .matched c =>
              match matchKnownFields strap fields kvs with
              | .ok cs => .ok ((name, c) :: cs)
              | .error e => .error e

end

/-- Modelled from the spec (§3): a field schema wraps a descriptor with the
independent `optional` flag and optional `default` value. -/
structure FieldSchema where
  type : Descriptor
  optional : Bool
  default : Option Json
deriving Repr

/-- Modelled from the spec (§4.2): the outcome of decoding one field. -/
inductive FieldResult where
  | coerced : Json → FieldResult
  | absent : FieldResult
  | missing : FieldResult
  | typeMismatch : List String → String → FieldResult
deriving Repr

/-- Modelled from the spec (§4.2): the field decoder.  An absent value with a
default substitutes the default without running the matcher; an absent
optional value succeeds as absent; an absent required value is missing; a
present value always runs the matcher. -/
def decodeField (strap : Bool) (fs : FieldSchema) (raw : Option Json) : FieldResult :=
  match raw with
  | none =>
      match fs.default with
      | some d => .coerced d
      | none => if fs.optional then .absent else .missing
  | some v =>
      match matchDesc strap fs.type v with
      | .matched c => .coerced c
      | .mismatch p r => .typeMismatch p r

/-- Modelled from the spec (§7): a field error, tagged with its group and
field name. -/
inductive FieldErr where
  | missing : String → String → FieldErr
  | typeMismatch : String → String → List String → String → FieldErr
deriving Repr, DecidableEq

/-- Human-readable description of one field error. -/
def describeErr : FieldErr → String
  | .missing g f => "Missing " ++ g ++ " field " ++ f
  | .typeMismatch g f _p r => "Wrong " ++ g ++ " field " ++ f ++ ": " ++ r

/-- Consolidated human-readable text covering every collected field error. -/
def describeAll : List FieldErr → String
  | [] => ""
  | [e] => describeErr e
  | e :: f :: rest => describeErr e ++ ", " ++ describeAll (f :: rest)

/-- Generic first-occurrence lookup in an association list with string keys. -/
def lookupAssoc {α : Type} (name : String) : List (String × α) → Option α
  | [] => none
  | (k, v) :: kvs => if k = name then some v else lookupAssoc name kvs

/-- Modelled from the spec (§4.3): decode one group's declared fields against
the raw key-value map, collecting the decoded values and ALL field errors
(decoding continues past an error rather than stopping at the first). -/
def decodeGroup (strap : Bool) (group : String) : List (String × FieldSchema) → List (String × Json) → List (String × Json) × List FieldErr
  | [], _ => ([], [])
  | (name, fs) :: rest, raw =>
      let tail := decodeGroup strap group rest raw
      match decodeField strap fs (lookupKey name raw) with
      | .coerced c => ((name, c) :: tail.1, tail.2)
      | .absent => (tail.1, tail.2)
      | .missing => (tail.1, .missing group name :: tail.2)
      | .typeMismatch p r => (tail.1, .typeMismatch group name p r :: tail.2)

/-- Modelled from the spec (§4.1 `strap`, §5): raw keys of a group that are
not declared in the group's schema are passed through unchanged unless the
`strap` stripping mode is active, in which case they are dropped. -/
def passthrough (strap : Bool) (schemas : List (String × FieldSchema)) (raw : List (String × Json)) : List (String × Json) :=
  if strap then [] else raw.filter (fun p => (lookupAssoc p.1 schemas).isNone)

/-- The three per-group schema maps of one handler registration. -/
structure SchemaGroups where
  body : List (String × FieldSchema)
  query : List (String × FieldSchema)
  params : List (String × FieldSchema)

/-- One raw incoming request's three field groups (already parsed). -/
structure RawRequest where
  body : List (String × Json)
  query : List (String × Json)
  params : List (String × Json)

/-- The decoded field groups handed to the business handler. -/
structure DecodedFields where
  body : List (String × Json)
  query : List (String × Json)
  params : List (String × Json)

/-- Modelled from the spec (§4.3): the request validator decodes the three
groups independently and aggregates every field error of every group. -/
def validateRequest (strap : Bool) (schemas : SchemaGroups) (req : RawRequest) : DecodedFields × List FieldErr :=
  let b := decodeGroup strap "body" schemas.body req.body
  let q := decodeGroup strap "query" schemas.query req.query
  let p := decodeGroup strap "params" schemas.params req.params
  (⟨b.1 ++ passthrough strap schemas.body req.body,
    q.1 ++ passthrough strap schemas.query req.query,
    p.1 ++ passthrough strap schemas.params req.params⟩,
   b.2 ++ q.2 ++ p.2)

/-- Modelled from the spec (§6, §9): process-wide configuration, reduced to
what the claims need. -/
structure Config where
  bugreportEmail : String

/-- Modelled from the spec (§6): the request metadata the pipeline reads from
the router: URL, method, client IP, user agent, and the raw `Authorization`
header (absent when the client sent none). -/
structure ReqInfo where
  url : String
  method : String
  ip : String
  ua : String
  authHeader : Option String

/-- One HTTP response: status, serialized body, and content type. -/
structure Response where
  status : Nat
  body : String
  contentType : String
deriving Repr, DecidableEq

/-- Modelled from the spec (§4.5): the structured log record emitted on an
uncaught failure. -/
structure LogRecord where
  ID : String
  USER : String
  TRACE : String
  url : String
  method : String
  ip : String
  ua : String
deriving Repr, DecidableEq

/-- Modelled from the spec (§4.5): what the business handler hands back —
a plain value, an `HttpError`, or an `HttpCode`. -/
inductive HValue where
  | plain : Json → HValue
  | httpError : Nat → Option String → Option String → HValue
  | httpCode : HttpCode → HValue

/-- Modelled from the spec (§4.5): the result of invoking the handler once —
it returned a value, threw an `HttpError(status, errorText?, description?)`,
or threw any other error (message and stack trace). -/
inductive HandlerResult where
  | returned : HValue → HandlerResult
  | threwHttpError : Nat → Option String → Option String → HandlerResult
  | threwError : String → String → HandlerResult

/-- Modelled from the spec (§4.5) and the test suite: the status-code-specific
default error text used when `HttpError` is given no error text. -/
def defaultErrorText : Nat → String
  | 400 => "Bad Request"
  | 401 => "Unauthorized"
  | 403 => "Forbidden"
  | 404 => "Not Found"
  | 500 => "Internal Server Error"
  | _ => "Error"

/-- Modelled from the spec (§4.5): the serialized body of an `ExplicitError`
outcome — `error` is the given text or the status default, `description` is
present exactly when one was given. -/
def httpErrorBody (status : Nat) (errorText descr : Option String) : Json :=
  .obj ([("error", Json.str (errorText.getD (defaultErrorText status)))] ++
        (match descr with
         | some d => [("description", Json.str d)]
         | none => []))

/-- Modelled from the spec (§6): the fixed plain-text template of the
uncaught-failure body, embedding the correlation identifier and the
configured bug-report email address. -/
def serverErrorText (uuid email : String) : String :=
  "SERVER ERROR! " ++ uuid ++
    " Please consider sending this error-message along with a description of what happend and what you where doing to this email-address: " ++
    email ++ "."

/-- Modelled from the spec (§4.5): classify the handler result and produce
the response plus the (possibly empty) list of emitted log records.  The
fresh correlation identifier is supplied by the caller (its generation is a
random, external effect). -/
def classify (cfg : Config) (req : ReqInfo) (uuid : String) : HandlerResult → Response × List LogRecord
  | .returned (.httpError s et d) =>
      (⟨s, jsonEncode (httpErrorBody s et d), "application/json"⟩, [])
  | .threwHttpError s et d =>
      (⟨s, jsonEncode (httpErrorBody s et d), "application/json"⟩, [])
  | .returned (.httpCode h) =>
      (⟨h.code, jsonEncode h.message, "application/json"⟩, [])
  | .returned (.plain v) =>
      (⟨200, jsonEncode v, "application/json"⟩, [])
  | .threwError _msg trace =>
      (⟨500, serverErrorText uuid cfg.bugreportEmail, "text/plain"⟩,
       [⟨uuid, req.authHeader.getD "", trace, req.url, req.method, req.ip, req.ua⟩])

/-- A business handler: plain synchronous function or async function (the
pipeline awaits either fully before classifying, so both are modelled as
total functions distinguished only by a tag). -/
inductive Handler (α : Type) where
  | asyncFn : (α → HandlerResult) → Handler α
  | syncFn : (α → HandlerResult) → Handler α

/-- Invoke a handler, awaiting it fully; sync and async handlers behave
identically. -/
def runHandler {α : Type} : Handler α → α → HandlerResult
  | .asyncFn f, a => f a
  | .syncFn f, a => f a

/-- Modelled from the spec (§6): the validation-failure body. -/
def fieldmissmatchBody (errs : List FieldErr) : Json :=
  .obj [("error", Json.str "Fieldmissmatch"), ("description", Json.str (describeAll errs))]

/-- Modelled from the spec (§4.5): the per-request pipeline — validate, then
either answer 400 `Fieldmissmatch` (handler untouched) or invoke the handler
exactly once and classify its result. -/
def runPipeline (cfg : Config) (strap : Bool) (schemas : SchemaGroups)
    (h : Handler DecodedFields) (req : RawRequest) (ri : ReqInfo) (uuid : String) :
    Response × List LogRecord :=
  let v := validateRequest strap schemas req
  if v.2.isEmpty then
    classify cfg ri uuid (runHandler h v.1)
  else
    (⟨400, jsonEncode (fieldmissmatchBody v.2), "application/json"⟩, [])

/-- Modelled from the spec (§4.6): the shape constraint of one declared
response variant — a literal value, an error text, or a full descriptor. -/
inductive VariantCheck where
  | value : Json → VariantCheck
  | error : String → VariantCheck
  | type : Descriptor → VariantCheck

/-- Modelled from the spec (§3): one declared response variant. -/
structure Variant where
  status : Nat
  check : VariantCheck

/-- From `myTestEndpoint.js`: the three response variants declared for
`myEndpoint` via `myEndpoint.returns`. -/
def myEndpointReturns : List Variant :=
  [⟨200, .value (.str "ok")⟩,
   ⟨400, .error "Name too long"⟩,
   ⟨200, .type (.objKnown
      [("foo", false, .lit (.str "really!")),
       ("boo", false, .atomic .bool),
       ("kabaz", true, .atomic .bool),
       ("arr", false, .array (.objKnown [("a", false, .atomic .int)])),
       ("objectWithUnknownKeys", false, .objUnknown (.atomic .int)),
       ("objectWithUnknownKeysAndUnknownTypes", false, .objUnknown (.atomic .catchAll))])⟩]

/-- Modelled from the spec (§4.6): `allChecked(declaredVariants, observedSet)`
succeeds when every declared variant's index was marked seen during the test
session, and otherwise raises, reporting the indices of the variants that
were never observed. -/
def allChecked (declared : List Variant) (seen : List Nat) : Except (List Nat) Unit :=
  match (List.range declared.length).filter (fun i => decide (i ∉ seen)) with
  | [] => .ok ()
  | l => .error l

/-- Whether a match result is a `Mismatch`. -/
def MatchResult.failed : MatchResult → Bool
  | .matched _ => false
  | .mismatch _ _ => true

/-- The error (if any) produced by decoding one named field of a group, as a
standalone specification of one field's failure. -/
def fieldFailure (strap : Bool) (group name : String) (fs : FieldSchema) (raw : List (String × Json)) : Option FieldErr :=
  match decodeField strap fs (lookupKey name raw) with
  | .missing => some (.missing group name)
  | .typeMismatch p r => some (.typeMismatch group name p r)
  | _ => none

/-- The errors of every declared field of one group, each field decoded
independently of the others. -/
def groupErrors (strap : Bool) (group : String) (schemas : List (String × FieldSchema)) (raw : List (String × Json)) : List FieldErr :=
  schemas.filterMap (fun nf => fieldFailure strap group nf.1 nf.2 raw)

/-- C10: `new HttpCode(c, m)` stores a truthy message verbatim; any falsy
message argument (omitted, `undefined`, `""`, `0`, `false`, `null`) is
replaced by `getDefaultMessage(c)`, which is `""` for every code; `this.code`
is always `c` and `this.type` is always `"HttpCode"`. -/
theorem claim_C10 (c : Nat) :
    getDefaultMessage c = Json.str "" ∧
    (∀ m : Option Json, truthy m = false → (mkHttpCode c m).message = Json.str "") ∧
    (∀ j : Json, truthy (some j) = true → (mkHttpCode c (some j)).message = j) ∧
    (∀ m : Option Json, (mkHttpCode c m).code = c ∧ (mkHttpCode c m).type = "HttpCode") := by
  refine ⟨rfl, ?_, ?_, ?_⟩
  · intro m hm
    simp [mkHttpCode, hm, getDefaultMessage]
  · intro j hj
    simp [mkHttpCode, hj]
  · intro m
    unfold mkHttpCode
    split <;> simp

theorem claim_C10_witness :
    (mkHttpCode 300 (some (Json.num 0))).message = Json.str "" ∧
    (mkHttpCode 300 none).message = Json.str "" ∧
    (mkHttpCode 300 (some (Json.obj [("test", Json.bool true)]))).message = Json.obj [("test", Json.bool true)] ∧
    (mkHttpCode 300 (some (Json.num 0))).code = 300 ∧
    (mkHttpCode 300 (some (Json.num 0))).type = "HttpCode" :=
  ⟨(claim_C10 300).2.1 (some (Json.num 0)) rfl,
   (claim_C10 300).2.1 none rfl,
   (claim_C10 300).2.2.1 (Json.obj [("test", Json.bool true)]) rfl,
   ((claim_C10 300).2.2.2 (some (Json.num 0))).1,
   ((claim_C10 300).2.2.2 (some (Json.num 0))).2⟩

/-- C7: a handler invocation that returns `HttpCode(status, body)` makes the
pipeline respond with exactly that status and the JSON-encoding of the body;
in particular `HttpCode(300, obj test true)` yields status 300 and body
encoding that object. -/
theorem claim_C7 (cfg : Config) (strap : Bool) (schemas : SchemaGroups)
    (req : RawRequest) (ri : ReqInfo) (uuid : String) (hc : HttpCode)
    (hl : Handler DecodedFields)
    (hval : (validateRequest strap schemas req).2 = [])
    (hret : runHandler hl (validateRequest strap schemas req).1 = .returned (.httpCode hc)) :
    runPipeline cfg strap schemas hl req ri uuid =
      (⟨hc.code, jsonEncode hc.message, "application/json"⟩, []) := by
  simp only [runPipeline]
  rw [hval]
  simp [hret, classify]

theorem claim_C7_witness :
    runPipeline ⟨"e@e"⟩ false ⟨[], [], []⟩
        (.asyncFn fun _ => .returned (.httpCode (mkHttpCode 300 (some (Json.obj [("test", Json.bool true)])))))
        ⟨[], [], []⟩ ⟨"/b8/", "POST", "127.0.0.1", "node-superagent", none⟩ "u1" =
      (⟨300, "\x7b\"test\":true\x7d", "application/json"⟩, []) :=
  claim_C7 ⟨"e@e"⟩ false ⟨[], [], []⟩ ⟨[], [], []⟩
    ⟨"/b8/", "POST", "127.0.0.1", "node-superagent", none⟩ "u1"
    (mkHttpCode 300 (some (Json.obj [("test", Json.bool true)])))
    (.asyncFn fun _ => .returned (.httpCode (mkHttpCode 300 (some (Json.obj [("test", Json.bool true)])))))
    rfl rfl

/-- C8: a handler that returns the plain string `"ok"` — whether registered
as an async function or as a plain synchronous function — is answered with
status 200 and the JSON encoding of the string, i.e. `"ok"` with the quotes
included. -/
theorem claim_C8 (cfg : Config) (strap : Bool) (schemas : SchemaGroups)
    (req : RawRequest) (ri : ReqInfo) (uuid : String)
    (f : DecodedFields → HandlerResult)
    (hval : (validateRequest strap schemas req).2 = [])
    (hret : f (validateRequest strap schemas req).1 = .returned (.plain (.str "ok"))) :
    runPipeline cfg strap schemas (.asyncFn f) req ri uuid =
      (⟨200, "\"ok\"", "application/json"⟩, []) ∧
    runPipeline cfg strap schemas (.syncFn f) req ri uuid =
      (⟨200, "\"ok\"", "application/json"⟩, []) := by
  simp only [runPipeline]
  rw [hval]
  simp only [List.isEmpty_nil, if_true, runHandler, hret, classify]
  constructor <;> rfl

theorem claim_C8_witness :
    runPipeline ⟨"e@e"⟩ false ⟨[], [], []⟩
        (.syncFn fun _ => .returned (.plain (.str "ok")))
        ⟨[], [], []⟩ ⟨"/b10/", "POST", "127.0.0.1", "node-superagent", none⟩ "u1" =
      (⟨200, "\"ok\"", "application/json"⟩, []) :=
  (claim_C8 ⟨"e@e"⟩ false ⟨[], [], []⟩ ⟨[], [], []⟩
    ⟨"/b10/", "POST", "127.0.0.1", "node-superagent", none⟩ "u1"
    (fun _ => .returned (.plain (.str "ok"))) rfl rfl).2

/-- C5: when the handler throws a non-`HttpError` error, the pipeline sends
exactly one response — status 500, content type text/plain, body equal to the
fixed template embedding the fresh correlation identifier and the configured
bug-report email — and emits exactly one structured log record whose ID is
the same identifier and which carries the raw Authorization header (or the
empty string), the full error trace, and the request's URL, method, client
IP, and user agent. -/
theorem claim_C5 (cfg : Config) (strap : Bool) (schemas : SchemaGroups)
    (req : RawRequest) (ri : ReqInfo) (uuid msg trace : String)
    (hl : Handler DecodedFields)
    (hval : (validateRequest strap schemas req).2 = [])
    (hthrow : runHandler hl (validateRequest strap schemas req).1 = .threwError msg trace) :
    runPipeline cfg strap schemas hl req ri uuid =
      (⟨500,
        "SERVER ERROR! " ++ uuid ++
          " Please consider sending this error-message along with a description of what happend and what you where doing to this email-address: " ++
          cfg.bugreportEmail ++ ".",
        "text/plain"⟩,
       [⟨uuid, ri.authHeader.getD "", trace, ri.url, ri.method, ri.ip, ri.ua⟩]) := by
  simp only [runPipeline]
  rw [hval]
  simp [hthrow, classify, serverErrorText]

theorem claim_C5_witness :
    runPipeline ⟨"<supportemailaddress goes here>"⟩ false ⟨[], [], []⟩
        (.asyncFn fun _ => .threwError "ups" "Error: ups\n    at handler")
        ⟨[], [], []⟩ ⟨"/b6/", "POST", "127.0.0.1", "node-superagent", none⟩
        "3f1b2c2e-0000-11ee-be56-0242ac120002" =
      (⟨500,
        "SERVER ERROR! 3f1b2c2e-0000-11ee-be56-0242ac120002 Please consider sending this error-message along with a description of what happend and what you where doing to this email-address: <supportemailaddress goes here>.",
        "text/plain"⟩,
       [⟨"3f1b2c2e-0000-11ee-be56-0242ac120002", "", "Error: ups\n    at handler",
         "/b6/", "POST", "127.0.0.1", "node-superagent"⟩]) := by
  have h := claim_C5 ⟨"<supportemailaddress goes here>"⟩ false ⟨[], [], []⟩ ⟨[], [], []⟩
    ⟨"/b6/", "POST", "127.0.0.1", "node-superagent", none⟩
    "3f1b2c2e-0000-11ee-be56-0242ac120002" "ups" "Error: ups\n    at handler"
    (.asyncFn fun _ => .threwError "ups" "Error: ups\n    at handler") rfl rfl
  exact h

/-- C6: a handler that returns `HttpError(status, errorText?, description?)`
and one that throws the same `HttpError` produce identical pipeline outcomes:
the given status with body serializing `error` (the given text, or the
status-specific default such as `"Bad Request"` for 400) and `description`
exactly when one was given. -/
theorem claim_C6 (cfg : Config) (strap : Bool) (schemas : SchemaGroups)
    (req : RawRequest) (ri : ReqInfo) (uuid : String) (s : Nat) (et d : Option String) :
    (∀ hr ht : Handler DecodedFields,
       runHandler hr (validateRequest strap schemas req).1 = .returned (.httpError s et d) →
       runHandler ht (validateRequest strap schemas req).1 = .threwHttpError s et d →
       runPipeline cfg strap schemas hr req ri uuid =
         runPipeline cfg strap schemas ht req ri uuid) ∧
    classify cfg ri uuid (.threwHttpError s et d) =
      (⟨s, jsonEncode (httpErrorBody s et d), "application/json"⟩, []) ∧
    httpErrorBody s et none = .obj [("error", Json.str (et.getD (defaultErrorText s)))] ∧
    (∀ dd : String, httpErrorBody s et (some dd) =
      .obj [("error", Json.str (et.getD (defaultErrorText s))), ("description", Json.str dd)]) ∧
    defaultErrorText 400 = "Bad Request" := by
  refine ⟨?_, rfl, rfl, fun dd => rfl, rfl⟩
  intro hr ht h1 h2
  simp only [runPipeline]
  simp [h1, h2, classify]

theorem claim_C6_witness :
    runPipeline ⟨"e@e"⟩ false ⟨[], [], []⟩
        (.asyncFn fun _ => .returned (.httpError 400 none none))
        ⟨[], [], []⟩ ⟨"/b2/", "POST", "127.0.0.1", "node-superagent", none⟩ "u1" =
      runPipeline ⟨"e@e"⟩ false ⟨[], [], []⟩
        (.asyncFn fun _ => .threwHttpError 400 none none)
        ⟨[], [], []⟩ ⟨"/b2/", "POST", "127.0.0.1", "node-superagent", none⟩ "u1" ∧
    jsonEncode (httpErrorBody 400 none none) = "\x7b\"error\":\"Bad Request\"\x7d" ∧
    jsonEncode (httpErrorBody 400 (some "error text2") (some "description, too")) =
      "\x7b\"error\":\"error text2\",\"description\":\"description, too\"\x7d" :=
  ⟨(claim_C6 ⟨"e@e"⟩ false ⟨[], [], []⟩ ⟨[], [], []⟩
      ⟨"/b2/", "POST", "127.0.0.1", "node-superagent", none⟩ "u1" 400 none none).1
      (.asyncFn fun _ => .returned (.httpError 400 none none))
      (.asyncFn fun _ => .threwHttpError 400 none none) rfl rfl,
   rfl, rfl⟩

/-- C3: a field schema with a default substitutes the default, untouched by
the matcher, when the field is absent (the default is trusted even when it
would not match the declared type); when the field is present the matcher
always runs, and a mismatching present value is reported as a type mismatch
even though a default exists. -/
theorem claim_C3 (strap : Bool) (d : Descriptor) (opt : Bool) (dv : Json) :
    decodeField strap ⟨d, opt, some dv⟩ none = .coerced dv ∧
    (∀ (v : Json) (p : List String) (r : String),
       matchDesc strap d v = .mismatch p r →
       decodeField strap ⟨d, opt, some dv⟩ (some v) = .typeMismatch p r) := by
  refine ⟨rfl, ?_⟩
  intro v p r h
  simp [decodeField, h]

theorem claim_C3_witness :
    decodeField false ⟨.atomic .string, false, some (Json.num 7)⟩ none =
      .coerced (Json.num 7) ∧
    decodeField false ⟨.atomic .string, false, some (Json.num 7)⟩ (some (Json.num 3)) =
      .typeMismatch [] "expected string" :=
  ⟨(claim_C3 false (.atomic .string) false (Json.num 7)).1,
   (claim_C3 false (.atomic .string) false (Json.num 7)).2 (Json.num 3) [] "expected string"
     (by simp [matchDesc, matchAtomic])⟩

/-- C9: `allChecked` succeeds exactly when every declared response variant was
observed during the test session, and otherwise raises with the list that
identifies precisely the unobserved variants; for `myEndpoint`'s 3 declared
variants with only the first two observed it raises identifying the third. -/
theorem claim_C9 (declared : List Variant) (seen : List Nat) :
    (allChecked declared seen = .ok () ↔ ∀ i < declared.length, i ∈ seen) ∧
    (∀ l, allChecked declared seen = .error l →
       l ≠ [] ∧ ∀ i, i ∈ l ↔ i < declared.length ∧ i ∉ seen) ∧
    allChecked myEndpointReturns [0, 1] = .error [2] := by
  have hmem : ∀ i, i ∈ (List.range declared.length).filter (fun i => decide (i ∉ seen)) ↔
      i < declared.length ∧ i ∉ seen := by
    intro i
    simp [List.mem_filter, List.mem_range]
  have hnil : (List.range declared.length).filter (fun i => decide (i ∉ seen)) = [] ↔
      ∀ i < declared.length, i ∈ seen := by
    rw [List.eq_nil_iff_forall_not_mem]
    constructor
    · intro h i hi
      by_contra hni
      exact h i ((hmem i).mpr ⟨hi, hni⟩)
    · intro h i hi
      rcases (hmem i).mp hi with ⟨h1, h2⟩
      exact h2 (h i h1)
  refine ⟨?_, ?_, rfl⟩
  · unfold allChecked
    cases hF : (List.range declared.length).filter (fun i => decide (i ∉ seen)) with
    | nil =>
        exact iff_of_true rfl (hnil.mp hF)
    | cons a as =>
        simp only []
        constructor
        · intro h
          exact absurd h (by simp)
        · intro h
          have h0 := hnil.mpr h
          rw [hF] at h0
          exact absurd h0 (by simp)
  · intro l hl
    unfold allChecked at hl
    cases hF : (List.range declared.length).filter (fun i => decide (i ∉ seen)) with
    | nil =>
        rw [hF] at hl
        exact absurd hl (by simp)
    | cons a as =>
        rw [hF] at hl
        simp only [Except.error.injEq] at hl
        subst hl
        refine ⟨by simp, ?_⟩
        intro i
        rw [← hF]
        exact hmem i

theorem claim_C9_witness :
    allChecked myEndpointReturns [0, 1] = .error [2] ∧
    (2 ∈ [2] ↔ 2 < myEndpointReturns.length ∧ 2 ∉ [0, 1]) := by
  have h := claim_C9 myEndpointReturns [0, 1]
  exact ⟨h.2.2, (h.2.1 [2] h.2.2).2 2⟩

/-- When every alternative of the list fails on `v`, the `oneOf` matcher
returns exactly the result of the last alternative. -/
theorem matchAlts_all_failed (strap : Bool) (v : Json) :
    ∀ (alts : List Descriptor) (last : Descriptor), alts.getLast? = some last →
      (∀ d ∈ alts, (matchDesc strap d v).failed = true) →
      matchAlts strap alts v = matchDesc strap last v := by
  intro alts
  induction alts with
  | nil =>
      intro last hlast _
      simp at hlast
  | cons d ds ih =>
      intro last hlast hall
      cases ds with
      | nil =>
          simp only [List.getLast?_singleton, Option.some.injEq] at hlast
          subst hlast
          simp [matchAlts]
      | cons e ds2 =>
          have hd := hall d (by simp)
          cases hmd : matchDesc strap d v with
          | matched c =>
              rw [hmd] at hd
              simp [MatchResult.failed] at hd
          | mismatch p r =>
              rw [List.getLast?_cons_cons] at hlast
              simp only [matchAlts, hmd]
              exact ih last hlast (fun d2 h2 => hall d2 (List.mem_cons_of_mem d h2))

/-- C1: the `oneOf` matcher tries alternatives left-to-right: whenever the
first alternative matches, its result (and so its coercion) is the overall
result, regardless of the later alternatives; and when every alternative
fails, the overall result is the last alternative's `Mismatch`, reporting the
last alternative's reason. -/
theorem claim_C1 (strap : Bool) (v : Json) :
    (∀ (A : Descriptor) (rest : List Descriptor) (c : Json),
       matchDesc strap A v = .matched c →
       matchDesc strap (.oneOf (A :: rest)) v = .matched c) ∧
    (∀ (alts : List Descriptor) (last : Descriptor),
       alts.getLast? = some last →
       (∀ d ∈ alts, (matchDesc strap d v).failed = true) →
       matchDesc strap (.oneOf alts) v = matchDesc strap last v) := by
  constructor
  · intro A rest c h
    cases rest with
    | nil => simp [matchDesc, matchAlts, h]
    | cons e ds => simp [matchDesc, matchAlts, h]
  · intro alts last hlast hall
    simp only [matchDesc]
    exact matchAlts_all_failed strap v alts last hlast hall

theorem claim_C1_witness :
    matchDesc false (.oneOf [.atomic .int, .atomic .string]) (.str "5") =
      .matched (.num 5) ∧
    matchDesc false (.oneOf [.atomic .string, .atomic .int]) (.str "5") =
      .matched (.str "5") ∧
    matchDesc false (.oneOf [.atomic .bool, .atomic .int]) (.str "x") =
      matchDesc false (.atomic .int) (.str "x") := by
  refine ⟨?_, ?_, ?_⟩
  · exact (claim_C1 false (.str "5")).1 (.atomic .int) [.atomic .string] (.num 5)
      (by simp [matchDesc, matchAtomic]; rfl)
  · exact (claim_C1 false (.str "5")).1 (.atomic .string) [.atomic .int] (.str "5")
      (by simp [matchDesc, matchAtomic])
  · refine (claim_C1 false (.str "x")).2 [.atomic .bool, .atomic .int] (.atomic .int) rfl ?_
    intro d hd
    simp only [List.mem_cons, List.mem_singleton] at hd
    rcases hd with rfl | rfl | h
    · simp [matchDesc, matchAtomic, MatchResult.failed]
    · simp [matchDesc, matchAtomic, MatchResult.failed]
      rfl
    · exact absurd h (by simp)

/-- A key that `findField` does not know differs from every declared name. -/
theorem findField_none_cons {k name : String} {opt : Bool} {t : Descriptor}
    {fs : List (String × Bool × Descriptor)}
    (h : findField k ((name, opt, t) :: fs) = none) :
    name ≠ k ∧ findField k fs = none := by
  by_cases hne : name = k
  · subst hne
    simp [findField] at h
  · simp [findField, hne] at h
    exact ⟨hne, h⟩

/-- Prepending a member whose key is declared nowhere in `fields` does not
change how the declared fields match. -/
theorem matchKnownFields_cons_undeclared (strap : Bool) (k : String) (jv : Json) :
    ∀ (fields : List (String × Bool × Descriptor)) (kvs : List (String × Json)),
      findField k fields = none →
      matchKnownFields strap fields ((k, jv) :: kvs) = matchKnownFields strap fields kvs := by
  intro fields
  induction fields with
  | nil =>
      intro kvs _
      simp [matchKnownFields]
  | cons f fs ih =>
      intro kvs hk
      obtain ⟨name, opt, t⟩ := f
      obtain ⟨hne, hk2⟩ := findField_none_cons hk
      have hlk : lookupKey name ((k, jv) :: kvs) = lookupKey name kvs := by
        simp only [lookupKey]
        rw [if_neg (fun h => hne h.symm)]
      simp only [matchKnownFields, hlk, ih kvs hk2]

/-- The coerced result of `Known`-mode field matching holds only declared
keys: an undeclared key never occurs in it. -/
theorem matchKnownFields_ok_lookup_none (strap : Bool) (k : String) :
    ∀ (fields : List (String × Bool × Descriptor)) (kvs : List (String × Json))
      (cs : List (String × Json)),
      matchKnownFields strap fields kvs = .ok cs →
      findField k fields = none →
      lookupKey k cs = none := by
  intro fields
  induction fields with
  | nil =>
      intro kvs cs hok _
      simp only [matchKnownFields, Except.ok.injEq] at hok
      subst hok
      rfl
  | cons f fs ih =>
      intro kvs cs hok hk
      obtain ⟨name, opt, t⟩ := f
      obtain ⟨hne, hk2⟩ := findField_none_cons hk
      simp only [matchKnownFields] at hok
      split at hok
      · split at hok
        · exact ih kvs cs hok hk2
        · exact absurd hok (by simp)
      · split at hok
        · exact absurd hok (by simp)
        · split at hok
          · rename_i c hrest cs2 heq
            simp only [Except.ok.injEq] at hok
            subst hok
            simp only [lookupKey]
            rw [if_neg hne]
            exact ih kvs cs2 heq hk2
          · exact absurd hok (by simp)

/-- An association-list key that resolves to `none` differs from the head's
key and resolves to `none` in the tail. -/
theorem lookupAssoc_none_cons {α : Type} {k name : String} {a : α}
    {rest : List (String × α)} (h : lookupAssoc k ((name, a) :: rest) = none) :
    name ≠ k ∧ lookupAssoc k rest = none := by
  by_cases hne : name = k
  · subst hne
    simp [lookupAssoc] at h
  · simp [lookupAssoc, hne] at h
    exact ⟨hne, h⟩

/-- A key not declared in a group's schema never occurs among the group's
decoded (declared) fields. -/
theorem decodeGroup_lookup_none (strap : Bool) (g k : String) :
    ∀ (schemas : List (String × FieldSchema)) (raw : List (String × Json)),
      lookupAssoc k schemas = none →
      lookupKey k (decodeGroup strap g schemas raw).1 = none := by
  intro schemas
  induction schemas with
  | nil =>
      intro raw _
      rfl
  | cons sf rest ih =>
      intro raw hk
      obtain ⟨name, fs⟩ := sf
      obtain ⟨hne, hk2⟩ := lookupAssoc_none_cons hk
      simp only [decodeGroup]
      split
      · rename_i c heq
        simp only [lookupKey]
        rw [if_neg hne]
        exact ih raw hk2
      · exact ih raw hk2
      · exact ih raw hk2
      · exact ih raw hk2

/-- C2: for a `Known`-mode object descriptor, a value object carrying a key
not declared in the descriptor is a `Mismatch` when the `strap` stripping
mode is off; with `strap` on the undeclared key is ignored — the value
matches exactly when it matches without that key, the undeclared key is
absent from the coerced result — and at the request level an undeclared key
is stripped from the decoded body, query, and params groups alike. -/
theorem claim_C2 (fields : List (String × Bool × Descriptor))
    (kvs : List (String × Json)) (k : String) (jv : Json)
    (hk : findField k fields = none) :
    ((k, jv) ∈ kvs →
       matchDesc false (.objKnown fields) (.obj kvs) = .mismatch [] "unknown key") ∧
    matchDesc true (.objKnown fields) (.obj ((k, jv) :: kvs)) =
      matchDesc true (.objKnown fields) (.obj kvs) ∧
    (∀ cs, matchDesc true (.objKnown fields) (.obj ((k, jv) :: kvs)) =
        .matched (.obj cs) → lookupKey k cs = none) ∧
    (∀ (schemas : SchemaGroups) (req : RawRequest),
       lookupAssoc k schemas.body = none →
       lookupAssoc k schemas.query = none →
       lookupAssoc k schemas.params = none →
       lookupKey k (validateRequest true schemas req).1.body = none ∧
       lookupKey k (validateRequest true schemas req).1.query = none ∧
       lookupKey k (validateRequest true schemas req).1.params = none) := by
  refine ⟨?_, ?_, ?_, ?_⟩
  · intro hin
    simp only [matchDesc, Bool.not_false, Bool.true_and]
    rw [if_pos]
    exact List.any_eq_true.mpr ⟨(k, jv), hin, by simp [hk]⟩
  · simp only [matchDesc, Bool.not_true, Bool.false_and, Bool.false_eq_true, if_false,
      matchKnownFields_cons_undeclared true k jv fields kvs hk]
  · intro cs h
    simp only [matchDesc, Bool.not_true, Bool.false_and, Bool.false_eq_true, if_false] at h
    cases hres : matchKnownFields true fields ((k, jv) :: kvs) with
    | error e =>
        rw [hres] at h
        obtain ⟨p, r⟩ := e
        simp at h
    | ok cs2 =>
        rw [hres] at h
        simp only [MatchResult.matched.injEq, Json.obj.injEq] at h
        subst h
        exact matchKnownFields_ok_lookup_none true k fields ((k, jv) :: kvs) cs2 hres hk
  · intro schemas req h1 h2 h3
    simp only [validateRequest, passthrough, if_true, List.append_nil]
    exact ⟨decodeGroup_lookup_none true "body" k schemas.body req.body h1,
      decodeGroup_lookup_none true "query" k schemas.query req.query h2,
      decodeGroup_lookup_none true "params" k schemas.params req.params h3⟩

theorem claim_C2_witness :
    matchDesc false (.objKnown [("a", false, .atomic .string)])
        (.obj [("a", .str "x"), ("b", .num 1)]) = .mismatch [] "unknown key" ∧
    matchDesc true (.objKnown [("a", false, .atomic .string)])
        (.obj [("b", .num 1), ("a", .str "x")]) =
      matchDesc true (.objKnown [("a", false, .atomic .string)]) (.obj [("a", .str "x")]) ∧
    lookupKey "b" [("a", Json.str "x")] = none ∧
    lookupKey "b" (validateRequest true
        ⟨[("a", ⟨.atomic .string, false, none⟩)], [], []⟩
        ⟨[("a", .str "x"), ("b", .num 1)], [], []⟩).1.body = none := by
  have h1 := claim_C2 [("a", false, .atomic .string)]
    [("a", Json.str "x"), ("b", Json.num 1)] "b" (Json.num 1) rfl
  have h2 := claim_C2 [("a", false, .atomic .string)]
    [("a", Json.str "x")] "b" (Json.num 1) rfl
  refine ⟨h1.1 (by simp), h2.2.1, ?_, ?_⟩
  · refine h2.2.2.1 [("a", Json.str "x")] ?_
    rw [h2.2.1]
    simp [matchDesc, matchKnownFields, lookupKey, matchAtomic]
  · exact (h2.2.2.2 ⟨[("a", ⟨.atomic .string, false, none⟩)], [], []⟩
      ⟨[("a", .str "x"), ("b", .num 1)], [], []⟩ rfl rfl rfl).1

/-- The errors collected by `decodeGroup` are exactly the independent
per-field failures of every declared field of the group. -/
theorem decodeGroup_snd_eq_groupErrors (strap : Bool) (g : String) :
    ∀ (schemas : List (String × FieldSchema)) (raw : List (String × Json)),
      (decodeGroup strap g schemas raw).2 = groupErrors strap g schemas raw := by
  intro schemas
  induction schemas with
  | nil =>
      intro raw
      rfl
  | cons sf rest ih =>
      intro raw
      obtain ⟨name, fs⟩ := sf
      simp only [decodeGroup, groupErrors, List.filterMap_cons, fieldFailure]
      cases hdf : decodeField strap fs (lookupKey name raw) with
      | coerced c => simpa using ih raw
      | absent => simpa using ih raw
      | missing => simpa using ih raw
      | typeMismatch p r => simpa using ih raw

/-- Every collected field error's description is contained in the
consolidated description text. -/
theorem describeErr_infix_describeAll :
    ∀ (l : List FieldErr) (e : FieldErr), e ∈ l →
      (describeErr e).data <:+: (describeAll l).data := by
  intro l
  induction l with
  | nil =>
      intro e h
      simp at h
  | cons a as ih =>
      intro e he
      cases as with
      | nil =>
          simp only [List.mem_singleton] at he
          subst he
          exact List.infix_refl _
      | cons b bs =>
          rcases List.mem_cons.mp he with rfl | hmem
          · show (describeErr e).data <:+: (describeErr e ++ ", " ++ describeAll (b :: bs)).data
            rw [String.data_append, String.data_append, List.append_assoc]
            exact (List.prefix_append _ _).isInfix
          · have h := ih e hmem
            show (describeErr e).data <:+: (describeErr a ++ ", " ++ describeAll (b :: bs)).data
            rw [String.data_append, String.data_append, List.append_assoc]
            exact h.trans ((List.suffix_append _ _).trans (List.suffix_append _ _)).isInfix

/-- C4: the request validator decodes every declared field of body, query,
and params independently and collects the errors of all of them (an earlier
field's failure suppresses no later field's error); whenever at least one
error exists the request is answered 400 with body
`error: "Fieldmissmatch"` and a consolidated description containing every
failed field's description, and the response does not depend on the handler,
which is never invoked. -/
theorem claim_C4 (cfg : Config) (strap : Bool) (schemas : SchemaGroups)
    (req : RawRequest) (ri : ReqInfo) (uuid : String) :
    (validateRequest strap schemas req).2 =
        groupErrors strap "body" schemas.body req.body ++
        groupErrors strap "query" schemas.query req.query ++
        groupErrors strap "params" schemas.params req.params ∧
    ((validateRequest strap schemas req).2 ≠ [] →
       ∀ h : Handler DecodedFields,
         runPipeline cfg strap schemas h req ri uuid =
           (⟨400,
             jsonEncode (.obj [("error", Json.str "Fieldmissmatch"),
               ("description",
                Json.str (describeAll (validateRequest strap schemas req).2))]),
             "application/json"⟩, [])) ∧
    (∀ e ∈ (validateRequest strap schemas req).2,
       (describeErr e).data <:+: (describeAll (validateRequest strap schemas req).2).data) := by
  refine ⟨?_, ?_, ?_⟩
  · simp only [validateRequest, List.append_assoc]
    rw [decodeGroup_snd_eq_groupErrors, decodeGroup_snd_eq_groupErrors,
      decodeGroup_snd_eq_groupErrors]
  · intro hne h
    simp only [runPipeline]
    rw [if_neg (by simpa using hne)]
    rfl
  · intro e he
    exact describeErr_infix_describeAll _ e he

theorem claim_C4_witness :
    runPipeline ⟨"e@e"⟩ false
        ⟨[("name", ⟨.atomic .string, false, none⟩)], [("q", ⟨.atomic .int, false, none⟩)], []⟩
        (.asyncFn fun _ => .returned (.plain (.str "ok")))
        ⟨[], [("q", .str "x")], []⟩ ⟨"/u", "POST", "ip", "ua", none⟩ "u1" =
      (⟨400,
        "\x7b\"error\":\"Fieldmissmatch\",\"description\":\"Missing body field name, Wrong query field q: expected int\"\x7d",
        "application/json"⟩, []) := by
  have herrs : (validateRequest false
      ⟨[("name", ⟨.atomic .string, false, none⟩)], [("q", ⟨.atomic .int, false, none⟩)], []⟩
      ⟨[], [("q", .str "x")], []⟩).2 =
      [.missing "body" "name", .typeMismatch "query" "q" [] "expected int"] := by
    simp [validateRequest, decodeGroup, decodeField, matchDesc, matchAtomic, lookupKey,
      parseIntStr, parseNatChars, parseDigits, digitOf]
  have h := (claim_C4 ⟨"e@e"⟩ false
    ⟨[("name", ⟨.atomic .string, false, none⟩)], [("q", ⟨.atomic .int, false, none⟩)], []⟩
    ⟨[], [("q", .str "x")], []⟩ ⟨"/u", "POST", "ip", "ua", none⟩ "u1").2.1
    (by rw [herrs]; simp) (.asyncFn fun _ => .returned (.plain (.str "ok")))
  rw [herrs] at h
  rw [h]
  rfl
